import Mathlib

/-!
# Verification of the mcp_agents stream-processing fabric

A shallow embedding, in Lean 4, of the parts of the `mcp_agents` repository
that its specification makes claims about:

* the outbound dispatcher and its idempotency store
  (`src/app/dispatchers/outbound_dispatcher.py`, `src/app/infra/redis/idempotency_store.py`);
* the Redis stream worker and its outbound payload construction
  (`src/app/infra/redis/worker.py`);
* the tool execution tracker and grounding predicate
  (`src/app/infra/tool_execution_tracker.py`);
* the output assembler (`src/app/runtime/output_assembler.py`);
* the validating tool wrapper (`src/app/infra/tool_validation/wrapper.py`);
* the agent composer (`src/app/agents/agent_definitions.py`) and tool discovery
  (`src/app/infra/redis/bootstrap.py`);
* the WhatsApp ingress webhook (`src/app/api/whatsapp_webhook.py`,
  `src/app/infra/redis/stream_publisher.py`, `src/app/audio/media.py`) and the
  legacy signature-validating handler (`src/app/inputs/whatsapp/inbound.py`);
* the media host (`src/app/api/media.py`).

Conventions of the embedding:

* Python strings become `String`; `str.strip()` becomes `String.pyStrip` and
  `str.lower()` becomes `String.pyLower`.
* Python `None`-able values become `Option`; the idiom `(x or "")` on an
  optional string becomes `Option.getD x ""` (both map `None`/`""` to `""`).
* JSON values become the inductive `Json` below.  A Python string result that
  may or may not parse as JSON is embedded as the string together with the
  outcome of `json.loads` (`Option Json`), so parsing itself is not re-modelled.
* Fallible external calls (Redis, Twilio, the LLM, STT/TTS) are oracles: the
  embedded function takes the call's outcome as an argument and the theorems
  quantify over all outcomes.  An exception is `none`/`false`; effects of an
  embedded handler (stream publishes, ACKs, deliveries, memory writes) are
  returned explicitly.
-/

/-! ## Python string primitives

Structurally recursive models of the Python string operations the embedded
code uses (`str.strip()`, `str.lower()`, `str.startswith`, `int(str)`), so
that concrete witnesses evaluate inside the kernel. -/

/-- Model of `str.strip()`: drop ASCII whitespace from both ends. -/
def String.pyStrip (s : String) : String :=
  ⟨((s.data.dropWhile Char.isWhitespace).reverse.dropWhile
      Char.isWhitespace).reverse⟩

/-- Model of `str.lower()` (ASCII case folding, which is all the embedded comparisons
need). -/
def String.pyLower (s : String) : String :=
  ⟨s.data.map Char.toLower⟩

/-- Character-list version of `str.startswith`. -/
def charsStartWith : List Char → List Char → Bool
  | _, [] => true
  | [], _ :: _ => false
  | c :: cs, d :: ds => c = d && charsStartWith cs ds

/-- Model of `str.startswith(pre)`. -/
def String.pyStartsWith (s pre : String) : Bool :=
  charsStartWith s.data pre.data

/-- Digit accumulator for `int(str)`. -/
def digitsToNatGo : List Char → Nat → Option Nat
  | [], acc => some acc
  | c :: cs, acc =>
      if c.isDigit then digitsToNatGo cs (acc * 10 + (c.toNat - 48)) else none

/-- The digits of a non-empty decimal numeral, else `none`. -/
def digitsToNat : List Char → Option Nat
  | [] => none
  | cs => digitsToNatGo cs 0

/-- Model of `int(str)` on an already-stripped string: an optional sign followed by at
least one decimal digit; anything else fails. -/
def String.pyInt? (s : String) : Option Int :=
  match s.data with
  | '-' :: rest => (digitsToNat rest).map (fun n => -(n : Int))
  | '+' :: rest => (digitsToNat rest).map (fun n => (n : Int))
  | l => (digitsToNat l).map (fun n => (n : Int))

namespace McpAgents

/-! ## A small JSON value model (for tool results and metadata) -/

/-- JSON values as produced by `json.loads` in the Python runtime. -/
inductive Json where
  | null
  | bool (b : Bool)
  | int (n : Int)
  | str (s : String)
  | arr (xs : List Json)
  | obj (fields : List (String × Json))

/-- Python truthiness of a JSON value (`if v:`). -/
def Json.truthy : Json → Bool
  | .null => false
  | .bool b => b
  | .int n => n != 0
  | .str s => !s.data.isEmpty
  | .arr xs => !xs.isEmpty
  | .obj fs => !fs.isEmpty

/-- Model of `dict.get(k)`: first binding of `k`, `none` when absent. -/
def dictGet (fs : List (String × Json)) (k : String) : Option Json :=
  (fs.find? (fun p => p.1 == k)).map (·.2)

/-- Truthiness of an optional value (`if obj.get(k):`, absent key is falsy). -/
def optTruthy : Option Json → Bool
  | none => false
  | some v => v.truthy

/-! ## Idempotency store and outbound dispatcher

From `src/app/infra/redis/idempotency_store.py` and
`src/app/dispatchers/outbound_dispatcher.py`.  The Redis keyspace
`sent:{out_id} -> "1"` is modelled as the list of `out_id`s that have been
marked sent (TTL expiry is not modelled; all claims are within the TTL
window). -/

/-- Model of `IdempotencyStore.was_sent(out_id)`. -/
def wasSent (sentSet : List String) (out_id : String) : Bool :=
  sentSet.contains out_id

/-- Model of `IdempotencyStore.mark_sent(out_id)` (the key is set; TTL not modelled). -/
def markSent (sentSet : List String) (out_id : String) : List String :=
  out_id :: sentSet

/-- An outbound stream entry as read by the dispatcher.  Absent fields are
`none` (`payload.get(...)` returns `None`). -/
structure OutEntry where
  out_id : Option String
  source : Option String
  user_id : Option String
  reply_text : Option String

/-- Result of `OutboundDispatcher._process_one` on one outbound entry:
deliveries performed, whether the entry was ACKed, and the idempotency
keyspace afterwards. -/
structure DispatchResult where
  sends : List (String × String)
  acked : Bool
  sentSet : List String

/-- Model of `OutboundDispatcher._process_one(client, stream_id, payload)`.

`deliveryOk` is the oracle for `TwilioWhatsAppSender.send_text` (true = the
provider call returns a SID, false = it raises).  Mirrors the source: trim the
required fields; ACK invalid entries to drain poison; ACK idempotent replays
without sending; deliver for `source == "whatsapp"`, then `mark_sent`, then
ACK; an unsupported source raises `ValueError`, and any raise skips the ACK. -/
def processOne (p : OutEntry) (sentSet : List String) (deliveryOk : Bool) :
    DispatchResult :=
  let out_id := (p.out_id.getD "").pyStrip
  let source := (match p.source with
                 | none => "unknown"
                 | some s => if s = "" then "unknown" else s).pyStrip
  let user_id := (p.user_id.getD "").pyStrip
  let reply_text := (p.reply_text.getD "").pyStrip
  if out_id = "" ∨ user_id = "" ∨ reply_text = "" then
    { sends := [], acked := true, sentSet := sentSet }
  else if wasSent sentSet out_id then
    { sends := [], acked := true, sentSet := sentSet }
  else if source = "whatsapp" then
    if deliveryOk then
      { sends := [(user_id, reply_text)], acked := true
        sentSet := markSent sentSet out_id }
    else
      { sends := [], acked := false, sentSet := sentSet }
  else
    { sends := [], acked := false, sentSet := sentSet }

/-! ## Media host

From `src/app/api/media.py`.  Filesystem paths are lists of components; a path
is implicitly absolute (rooted at `/`).  `Path.resolve()` is modelled as
lexical normalization (`.`/`""` dropped, `..` pops one component, popping past
the filesystem root stays at the root); symlinks are outside the model. -/

/-- What the filesystem holds at a resolved path. -/
inductive FileKind where
  | file
  | dir
  | absent
deriving DecidableEq

/-- Lexical `Path.resolve()` on path components. -/
def resolveComponents (cs : List String) : List String :=
  cs.foldl (fun acc c =>
    if c = "" ∨ c = "." then acc
    else if c = ".." then acc.dropLast
    else acc ++ [c]) []

/-- Model of `candidate.parents` of `pathlib`: every strict prefix of the component
list, i.e. every proper ancestor up to the filesystem root. -/
def pathParents (p : List String) : List (List String) :=
  (List.range p.length).map (fun k => p.take k)

/-- Response of `GET /media/{rel_path}`. -/
inductive MediaResponse where
  | bad400
  | notFound404
  | ok200 (path : List String)

/-- Model of `_safe_resolve_under_root(root, rel_path)`: resolve `root / rel_path` and
accept it only when it equals the resolved root or the resolved root is one of
its ancestors; otherwise the endpoint raises HTTP 400 (`none`). -/
def safeResolveUnderRoot (root rel : List String) : Option (List String) :=
  let candidate := resolveComponents (root ++ rel)
  let rootResolved := resolveComponents root
  if rootResolved = candidate ∨ rootResolved ∈ pathParents candidate then
    some candidate
  else
    none

/-- Model of `get_media(rel_path)`: 400 on traversal, 404 when the resolved path does
not exist or is not a regular file, otherwise serve the file.  `fs` is the
state of the filesystem at resolved paths. -/
def getMedia (fs : List String → FileKind) (root rel : List String) :
    MediaResponse :=
  match safeResolveUnderRoot root rel with
  | none => .bad400
  | some p => if fs p ≠ .file then .notFound404 else .ok200 p

/-! ## Tool execution tracker

From `src/app/infra/tool_execution_tracker.py`.  The contextvar collector for
one message is modelled as the explicit list of recorded events; recording
appends to that list. -/

/-- One grounding event `(tool_name, ok)`. -/
structure ToolExecutionEvent where
  name : String
  ok : Bool

/-- A Python value returned by a tool invocation, as inspected by
`_result_is_error_like`.  A string carries the outcome of `json.loads` on its
stripped form, since the code parses it. -/
inductive ToolResult where
  | noneR
  | strR (s : String) (parsed : Option Json)
  | dictR (fields : List (String × Json))
  | otherR

/-- Model of `status = result.get("status") or result.get("status_code")` (Python `or`:
a falsy `status` falls through to `status_code`). -/
def statusField (fs : List (String × Json)) : Option Json :=
  match dictGet fs "status" with
  | some v => if v.truthy then some v else dictGet fs "status_code"
  | none => dictGet fs "status_code"

/-- The common error-shape checks on a parsed JSON dict: a truthy
`error_type`, `object == "error"`, or a truthy `error` field. -/
def errorShapedObj (fs : List (String × Json)) : Bool :=
  optTruthy (dictGet fs "error_type") ||
    (match dictGet fs "object" with
     | some (.str s) => s = "error"
     | _ => false) ||
    optTruthy (dictGet fs "error")

/-- Model of `_result_is_error_like(result)`.  `None` and empty strings are error-like;
a string is error-like when it parses to an error-shaped dict; a dict is
error-like when it is error-shaped or carries an integer `status`/`status_code`
of 400 or more; anything else is not error-like. -/
def resultIsErrorLike : ToolResult → Bool
  | .noneR => true
  | .strR s parsed =>
      if s.pyStrip = "" then true
      else
        match parsed with
        | some (.obj fs) => errorShapedObj fs
        | _ => false
  | .dictR fs =>
      errorShapedObj fs ||
        (match statusField fs with
         | some (.int n) => n ≥ 400
         | _ => false)
  | .otherR => false

/-- Model of `record_tool_result(name, result)`: append `(name, ok)` with
`ok := not _result_is_error_like(result)` to the collector. -/
def recordToolResult (events : List ToolExecutionEvent) (name : String)
    (result : ToolResult) : List ToolExecutionEvent :=
  events ++ [{ name := name, ok := !resultIsErrorLike result }]

/-- Model of `_INTERNAL_TOOL_NAMES` membership plus the `transfer_to_` prefix check in
`is_internal_tool_name`: a non-string or blank name is internal; otherwise the
stripped name is compared. -/
def isInternalToolName (name : String) : Bool :=
  let n := name.pyStrip
  n = "" || n = "transfer_back_to_supervisor" || n = "memory_get_context" ||
    n = "get_current_datetime" || n.pyStartsWith "transfer_to_"

/-- Model of `any_grounded_success(count_local_audio)`: true when some recorded event
is `ok`, its tool is not internal, and (unless `count_local_audio`) its name
does not start with `localAudio_`. -/
def anyGroundedSuccess (countLocalAudio : Bool)
    (events : List ToolExecutionEvent) : Bool :=
  events.any (fun ev =>
    ev.ok && !isInternalToolName ev.name &&
      (countLocalAudio || !ev.name.pyStartsWith "localAudio_"))

/-! ## Validating tool wrapper

From `src/app/infra/tool_validation/wrapper.py` (`ValidatingTool._arun`; the
synchronous `_run` is line-for-line the same pipeline).  The per-tool
validator's outcomes and the Notion error normalization are oracles. -/

/-- The outcomes of the validation stage for one call: the semantic preflight
error payload, if any (`validator.pre_validate`), and the schema validation
error payload, if any (`None` also when the tool has no `args_schema`). -/
structure ValidationOutcome where
  preflightErr : Option String
  schemaErr : Option String

/-- Model of `ValidatingTool._arun(**kwargs)` for one call.

Inputs beyond the validation outcome: `inner` is the underlying tool's result
and `notionNorm` the outcome of `normalize_notion_http_validation_error`
(`none` = not a Notion validation error, result passed through).  Returns the
call's result together with the collector after the call.  A preflight or
schema rejection returns the error payload **before** the inner call, without
recording anything; otherwise exactly one grounding event is recorded for the
returned result. -/
def validatingToolArun (name : String) (vo : ValidationOutcome)
    (inner : ToolResult) (notionNorm : Option ToolResult)
    (events : List ToolExecutionEvent) :
    ToolResult × List ToolExecutionEvent :=
  match vo.preflightErr with
  | some e => (.strR e none, events)
  | none =>
    match vo.schemaErr with
    | some e => (.strR e none, events)
    | none =>
      match notionNorm with
      | some n => (n, recordToolResult events name n)
      | none => (inner, recordToolResult events name inner)

/-! ## Output assembler

From `src/app/runtime/output_assembler.py`.  A LangChain message is either a
typed `BaseMessage` (`ToolMessage`, `AIMessage`, or another kind such as
Human/System) or a plain dict; `response_metadata["__is_handoff_back"]` is the
`handoffBack` flag, and the names of an AI message's tool calls are kept as a
list.  A dict-shaped message also carries those attributes as dict entries,
which the assembler's dict path may or may not consult. -/

/-- A typed LangChain `BaseMessage`: a `ToolMessage`, an `AIMessage` (with
its optional `name` and the names of its tool calls), or any other message
kind (Human/System). `handoffBack` is `response_metadata["__is_handoff_back"]`. -/
inductive BaseMsg where
  | toolMsg (content : String) (handoffBack : Bool)
  | aiMsg (name : Option String) (content : String) (handoffBack : Bool)
      (toolCallNames : List String)
  | otherMsg (content : String) (handoffBack : Bool)

/-- Model of `getattr(msg, "content", "") or ""` before stripping. -/
def BaseMsg.content : BaseMsg → String
  | .toolMsg c _ => c
  | .aiMsg _ c _ _ => c
  | .otherMsg c _ => c

/-- One entry of a supervisor result's `messages` list: either a typed
`BaseMessage` or a plain dict, which also carries the handoff-back marker and
tool-call names as dict entries (whether the dict path consults them is
exactly what is at issue). -/
inductive PyMsg where
  | base (m : BaseMsg)
  | dictMsg (role : String) (name : Option String) (content : String)
      (handoffBack : Bool) (toolCallNames : List String)

/-- The content attribute/entry of a messages-list element. -/
def PyMsg.content : PyMsg → String
  | .base m => m.content
  | .dictMsg _ _ c _ _ => c

/-- Whether the entry is a typed `BaseMessage` (`isinstance(m, BaseMessage)`). -/
def PyMsg.isBaseMessage : PyMsg → Bool
  | .base _ => true
  | .dictMsg .. => false

/-- Model of `_is_handoff_or_internal(msg)` on a typed message: `ToolMessage`s,
messages whose `response_metadata` carries `__is_handoff_back`, and AI
messages with a `transfer_back_to_supervisor` tool call. -/
def isHandoffOrInternalBase : BaseMsg → Bool
  | .toolMsg _ _ => true
  | .aiMsg _ _ hb tcs =>
      hb || tcs.any (fun n => n.pyStrip = "transfer_back_to_supervisor")
  | .otherMsg _ hb => hb

/-- Model of `_is_handoff_or_internal(msg)` on any messages-list element.  A dict has
none of the inspected attributes (`getattr` with a default and the
`isinstance` checks all miss), so every dict passes the filter. -/
def isHandoffOrInternal : PyMsg → Bool
  | .base m => isHandoffOrInternalBase m
  | .dictMsg .. => false

/-- Model of `_pick_last_supervisor_answer`, iterating the reversed list: skip internal
messages, return the first AI message named `"supervisor"` with non-empty
stripped content. -/
def pickSupervisorAnswer : List PyMsg → Option String
  | [] => none
  | m :: rest =>
    if isHandoffOrInternal m then pickSupervisorAnswer rest
    else
      match m with
      | .base (.aiMsg (some n) c _ _) =>
          if n = "supervisor" ∧ c.pyStrip ≠ "" then some c.pyStrip
          else pickSupervisorAnswer rest
      | _ => pickSupervisorAnswer rest

/-- Model of `_pick_last_non_internal_answer`, iterating the reversed list: skip
internal messages, return the first AI message with non-empty stripped
content. -/
def pickNonInternalAnswer : List PyMsg → Option String
  | [] => none
  | m :: rest =>
    if isHandoffOrInternal m then pickNonInternalAnswer rest
    else
      match m with
      | .base (.aiMsg _ c _ _) =>
          if c.pyStrip ≠ "" then some c.pyStrip else pickNonInternalAnswer rest
      | _ => pickNonInternalAnswer rest

/-- The dict-shaped fallback, first loop: iterate the reversed list, skip
non-dicts, compute `role.lower()` and stripped content, skip empty content and
`role == "tool"`, return the content when `name == "supervisor"`. -/
def pickSupervisorDict : List PyMsg → Option String
  | [] => none
  | .dictMsg role name c _ _ :: rest =>
      if c.pyStrip = "" ∨ role.pyLower = "tool" then pickSupervisorDict rest
      else if name = some "supervisor" then some c.pyStrip
      else pickSupervisorDict rest
  | _ :: rest => pickSupervisorDict rest

/-- The dict-shaped fallback, second loop: the last dict whose stripped
content is non-empty and whose lowered role is not `"tool"`. -/
def pickFallbackDict : List PyMsg → Option String
  | [] => none
  | .dictMsg role _ c _ _ :: rest =>
      if c.pyStrip ≠ "" ∧ role.pyLower ≠ "tool" then some c.pyStrip
      else pickFallbackDict rest
  | _ :: rest => pickFallbackDict rest

/-- A supervisor invocation result as inspected by `extract_reply_text` and
`_extract_structured_fields`: Python `None`, a plain string, a direct
`BaseMessage`, a LangGraph dict state (with optional `output` string,
`messages` list, and `structured_response` status/actions), or any other
value. -/
inductive SupRes where
  | pyNone
  | pyStr (s : String)
  | pyMsgRes (m : BaseMsg)
  | pyDict (output : Option String) (messages : Option (List PyMsg))
      (structuredStatus : Option String) (structuredActions : Option (List String))
      (taskInstructions : Option String)
  | pyOther

/-- The `messages` handling of `extract_reply_text` on a dict result: empty or
missing list yields `""`; when the first entry is a typed message, prefer the
supervisor answer then the non-internal fallback; otherwise run the two
dict-shaped loops. -/
def extractFromMessages : Option (List PyMsg) → String
  | none => ""
  | some [] => ""
  | some (m :: rest) =>
    if m.isBaseMessage then
      match pickSupervisorAnswer (m :: rest).reverse with
      | some s => s
      | none => (pickNonInternalAnswer (m :: rest).reverse).getD ""
    else
      match pickSupervisorDict (m :: rest).reverse with
      | some s => s
      | none => (pickFallbackDict (m :: rest).reverse).getD ""

/-- Model of `extract_reply_text(result)`. -/
def extractReplyText : SupRes → String
  | .pyNone => ""
  | .pyStr s => s.pyStrip
  | .pyMsgRes m => if isHandoffOrInternalBase m then "" else m.content.pyStrip
  | .pyDict output messages _ _ _ =>
    match output with
    | some o => if o.pyStrip ≠ "" then o.pyStrip else extractFromMessages messages
    | none => extractFromMessages messages
  | .pyOther => ""

/-- Model of `extract_reply_text(result) or "Done."` — the worker's final reply. -/
def workerReplyText (r : SupRes) : String :=
  let s := extractReplyText r
  if s = "" then "Done." else s

/-- Model of `_extract_structured_fields(result)`, status component: the
`structured_response` status when it is a string with non-empty strip. -/
def extractStructuredStatus : SupRes → Option String
  | .pyDict _ _ (some st) _ _ => if st.pyStrip ≠ "" then some st.pyStrip else none
  | _ => none

/-- Model of `_extract_structured_fields(result)`, actions component: actions that are
non-blank strings. -/
def extractStructuredActions : SupRes → List String
  | .pyDict _ _ _ (some acts) _ => acts.filter (fun a => a.pyStrip ≠ "")
  | _ => []

/-! ## Redis stream worker

From `src/app/infra/redis/worker.py`.  One `_process_message` call is embedded
as a pure function of the inbound entry and an oracle giving the outcome of
every fallible external step.  Its observable effects — the payloads published
to the outbound stream, whether the inbound entry was XACKed, and whether the
grounded-memory write was performed — are returned explicitly. -/

/-- Raw fields of an inbound stream entry (`payload: Dict[str, str]`; absent
fields are `none`). -/
structure InPayload where
  text : Option String
  source : Option String
  user_id : Option String
  metadata : Option String
  message_id : Option String
  conversation_id : Option String
  timestamp : Option String

/-- Model of `InboundContext` as produced by `_build_inbound_context`.
`metadataParses` abstracts whether `json.loads(metadata_json)` succeeds (used
by `_build_outbound_payload` when copying the metadata through). -/
structure InboundCtx where
  stream_message_id : String
  source : String
  user_id : String
  text : String
  metadata_json : Option String
  message_id : String
  conversation_id : String
  timestamp : Option String

/-- Model of `_build_inbound_context(stream_message_id, payload)`: trim the text,
default `source`/`user_id` to `"unknown"`, default `message_id` to the stream
entry id and `conversation_id` to `message_id`. -/
def buildInboundContext (streamId : String) (p : InPayload) : InboundCtx :=
  let message_id :=
    let m := (p.message_id.getD "").pyStrip
    if m = "" then streamId else m
  { stream_message_id := streamId
    source := p.source.getD "unknown"
    user_id := p.user_id.getD "unknown"
    text := (p.text.getD "").pyStrip
    metadata_json := p.metadata
    message_id := message_id
    conversation_id :=
      let c := (p.conversation_id.getD "").pyStrip
      if c = "" then message_id else c
    timestamp := p.timestamp }

/-- Model of `PreSupervisorResult` from `src/app/runtime/pre_supervisor.py`. -/
structure PreResult where
  supervisor_input : String
  original_text : String
  english_text : String
  detected_language : String
  is_english : Bool
  inbound_has_audio : Bool
  immediate_reply : Option String

/-- The metadata field of an outbound payload: the inbound metadata JSON kept
verbatim when it parses, else `json.dumps({"raw": <metadata>})`. -/
inductive OutMetadata where
  | verbatim (s : String)
  | wrappedRaw (s : String)

/-- An outbound envelope as a structured record of the string fields set by
the worker. -/
structure OutPayload where
  out_id : String
  correlation_id : String
  conversation_id : String
  source : String
  user_id : String
  reply_text : String
  status : String
  timestamp : String
  metadata : Option OutMetadata
  reply_audio_url : Option String
  reply_audio_mime_type : Option String

/-- Model of `_build_outbound_payload(ctx, reply_text)`: a fresh `out_id`, the inbound
`message_id` as correlation id, the literal status `"success"`, and the
metadata copied through (wrapped when it fails to parse).  `freshOutId` and
`ts` stand for `uuid.uuid4()` and `datetime.now(utc)`; `metadataParses` is the
outcome of `json.loads(ctx.metadata_json)`. -/
def buildOutboundPayload (ctx : InboundCtx) (reply_text : String)
    (freshOutId ts : String) (metadataParses : Bool) : OutPayload :=
  { out_id := freshOutId
    correlation_id := ctx.message_id
    conversation_id := ctx.conversation_id
    source := ctx.source
    user_id := ctx.user_id
    reply_text := reply_text
    status := "success"
    timestamp := ts
    metadata :=
      match ctx.metadata_json with
      | none => none
      | some mj =>
        if mj = "" then none
        else if metadataParses then some (.verbatim mj)
        else some (.wrappedRaw mj)
    reply_audio_url := none
    reply_audio_mime_type := none }

/-- The outbound fields produced by `_maybe_build_audio_reply` when it returns
an audio reply. -/
structure AudioFields where
  url : String
  mime : String

/-- Oracle for the fallible external steps of one `_process_message` call.

* `pre = none`: `prepare_for_supervisor` raised (the exception propagates out
  of `_process_message`, which is not reached past that point).
* `sup = none`: `supervisor.ainvoke` raised (caught by the outer `try`).
* `supEvents`: the tool execution events recorded in the request context
  during the supervisor run (after `reset_tool_events`).
* `audioResult`: net outcome of the TTS step — `none` covers the TTS call
  raising (caught), returning no file, or audio replies being disabled.
* `metadataParses`: whether the inbound metadata JSON parses.
* `publishOk`: whether `publish_output` (XADD to the outbound stream)
  succeeds; on failure the outer `except` skips the ACK. -/
structure WorkerOracle where
  pre : Option PreResult
  sup : Option SupRes
  supEvents : List ToolExecutionEvent
  audioResult : Option AudioFields
  metadataParses : Bool
  publishOk : Bool

/-- Observable effects of one `_process_message` call. -/
structure WorkerEffects where
  published : List OutPayload
  acked : Bool
  memWritten : Bool

/-- Model of `(status or "").strip().lower()` — the worker's normalization of the
extracted structured status. -/
def statusNorm (status : Option String) : String :=
  (status.getD "").pyStrip.pyLower

/-- The tail of `_process_message` once a result value for the message exists
(the immediate reply or the supervisor result): extract the reply, build the
outbound payload, optionally attach the audio fields, run the grounded-memory
gate, publish, and ACK only after a successful publish. -/
def finishMessage (ctx : InboundCtx) (pre : PreResult) (result : SupRes)
    (events : List ToolExecutionEvent) (o : WorkerOracle)
    (freshOutId ts : String) : WorkerEffects :=
  let reply := workerReplyText result
  let base := buildOutboundPayload ctx reply freshOutId ts o.metadataParses
  let payload :=
    if pre.inbound_has_audio then
      match o.audioResult with
      | some f =>
        { base with reply_audio_url := some f.url
                    reply_audio_mime_type := some f.mime }
      | none => base
    else base
  let grounded := anyGroundedSuccess false events
  let memWritten :=
    statusNorm (extractStructuredStatus result) = "success" && grounded
  if o.publishOk then
    { published := [payload], acked := true, memWritten := memWritten }
  else
    { published := [], acked := false, memWritten := memWritten }

/-- Model of `RedisStreamWorker._process_message(client, message_id, payload)`.

When preprocessing raises, nothing at all happens (the exception propagates).
When the preprocessor produced an `immediate_reply`, the supervisor is not
invoked and the collector was never reset in this task, so the request
context starts with a fresh empty collector.  When the supervisor raises, the
outer `try` catches it: nothing is published and the entry is not ACKed. -/
def processMessage (streamId : String) (p : InPayload) (o : WorkerOracle)
    (freshOutId ts : String) : WorkerEffects :=
  let ctx := buildInboundContext streamId p
  match o.pre with
  | none => { published := [], acked := false, memWritten := false }
  | some pre =>
    match pre.immediate_reply with
    | some imm => finishMessage ctx pre (.pyStr imm) [] o freshOutId ts
    | none =>
      match o.sup with
      | none => { published := [], acked := false, memWritten := false }
      | some r => finishMessage ctx pre r o.supEvents o freshOutId ts

/-! ## Tool discovery and agent composition

From `src/app/infra/redis/bootstrap.py` (`load_mcp_tools`) and
`src/app/agents/agent_definitions.py` (`create_agent_definitions_with_llm`).
The LLM's structured response is an oracle (a list of agent definitions); the
policy-pack and placeholder machinery only rewrites `system_message`, which no
claim inspects, so agent definitions are embedded as their name, tool list and
source server. -/

/-- A discovered tool record tagged with its source server. -/
structure ToolRec where
  name : String
  sourceServer : String

/-- An agent definition (`AgentDefinition`), restricted to the fields the
claims are about. -/
structure AgentDef where
  name : String
  tools : List String
  sourceServer : String

/-- Model of `load_mcp_tools(mcp_client, blacklist_by_server)`: for each discovered
server, drop the tools whose name is in that server's blacklist and tag the
rest with the server name.  `allTools` is the discovery result
(`server -> tool names`), `blacklist` the per-server blacklist. -/
def loadMcpTools (allTools : List (String × List String))
    (blacklist : String → List String) : List ToolRec :=
  allTools.flatMap (fun st =>
    ((st.2.filter (fun t => !(blacklist st.1).contains t)).map
      (fun t => ToolRec.mk t st.1)))

/-- A Python `set` built from a list, as a first-occurrence-deduplicated
list (`set(all_tool_names) - assigned_tools` is order-unspecified in CPython;
only membership matters to the embedded facts). -/
def dedupKeepFirst : List String → List String
  | [] => []
  | x :: xs => x :: (dedupKeepFirst xs).filter (fun y => y ≠ x)

/-- Model of `_normalize_agent_name`: spaces and dashes become underscores, then
lower-case. -/
def normalizeAgentName (s : String) : String :=
  String.pyLower ⟨s.data.map (fun c => if c = ' ' ∨ c = '-' then '_' else c)⟩

/-- Model of `create_agent_definitions_with_llm(tagged_tools, llm, ...)`, success path.

`resp` is the LLM's structured output.  The code normalizes each agent's name,
collects the set of assigned tool names, computes the set of discovered tool
names the LLM omitted, and extends the **first** agent's tool list with the
missing ones (when there is at least one agent).  There is no duplicate check
and no `max_tools_per_agent` post-check; the Python sets are modelled as
first-occurrence-deduplicated lists. -/
def createAgentDefinitionsWithLlm (tagged : List ToolRec)
    (resp : List AgentDef) : List AgentDef :=
  if tagged.isEmpty then []
  else
    let agents := resp.map (fun a => { a with name := normalizeAgentName a.name })
    let assigned := agents.flatMap (·.tools)
    let missing :=
      (dedupKeepFirst (tagged.map (·.name))).filter
        (fun n => !assigned.contains n)
    if missing.isEmpty then agents
    else
      match agents with
      | [] => []
      | a0 :: rest => { a0 with tools := a0.tools ++ missing } :: rest

/-! ## WhatsApp ingress webhook

From `src/app/api/whatsapp_webhook.py`, `src/app/audio/media.py`
(`extract_media_items_from_form`, `build_media_metadata_from_form`) and
`src/app/infra/redis/stream_publisher.py` (`publish_message`).  A form field
that is absent is `none`; `MediaUrl{i}` / `MediaContentType{i}` lookups are
functions of the index. -/

/-- The Twilio webhook form. -/
structure WebhookForm where
  From : Option String
  Body : Option String
  MessageSid : Option String
  NumMedia : Option String
  mediaUrl : Nat → Option String
  mediaCtype : Nat → Option String

/-- Model of `_safe_int(value, default)`: `int(value)` with the default on any
failure (absent field, empty or non-numeric string). -/
def safeInt (v : Option String) (default : Int) : Int :=
  match v with
  | none => default
  | some s => (s.pyStrip.pyInt?).getD default

/-- Model of `extract_media_items_from_form(form)`: for `i in range(max(NumMedia, 0))`,
keep the item when both the trimmed url and content type are non-empty. -/
def extractMediaItems (f : WebhookForm) : List (String × String) :=
  (List.range (max (safeInt f.NumMedia 0) 0).toNat).filterMap (fun i =>
    let u := ((f.mediaUrl i).getD "").pyStrip
    let c := ((f.mediaCtype i).getD "").pyStrip
    if u ≠ "" ∧ c ≠ "" then some (u, c) else none)

/-- The metadata dict built by `build_media_metadata_from_form` merged with
the webhook's `message_sid`. -/
structure InboundMetadata where
  message_sid : String
  num_media : Nat
  media : List (String × String)

/-- The inbound stream entry appended by
`RedisStreamPublisher.publish_message`. -/
structure InboundEntry where
  message_id : String
  source : String
  user_id : String
  conversation_id : String
  text : String
  timestamp : String
  metadata : InboundMetadata

/-- Model of `publish_message(source, user_id, text, conversation_id, metadata)`:
generate a fresh `message_id` (`freshId` stands for `uuid.uuid4()`), default
`conversation_id` to it when absent or empty, and append the entry. -/
def publishMessage (source user_id text : String)
    (conversation_id : Option String) (metadata : InboundMetadata)
    (freshId ts : String) : InboundEntry :=
  { message_id := freshId
    source := source
    user_id := user_id
    conversation_id :=
      match conversation_id with
      | none => freshId
      | some c => if c = "" then freshId else c
    text := text
    timestamp := ts
    metadata := metadata }

/-- Response of the `POST /webhooks/whatsapp` endpoint: 400 without
publishing, or 200 after publishing exactly the given entry. -/
inductive WebhookResponse where
  | bad400
  | ok200 (published : InboundEntry)

/-- Model of `whatsapp_webhook(request)`: trim `From` and `Body`, build the media
metadata, reject with 400 when the user id is empty or both the text is empty
and no valid media item exists, otherwise publish to the inbound stream and
return 200. -/
def whatsappWebhook (f : WebhookForm) (freshId ts : String) : WebhookResponse :=
  let user_id := (f.From.getD "").pyStrip
  let text := (f.Body.getD "").pyStrip
  let message_sid := (f.MessageSid.getD "").pyStrip
  let items := extractMediaItems f
  let has_media := items.length ≠ 0
  if user_id = "" ∨ (text = "" ∧ ¬has_media) then .bad400
  else
    .ok200 (publishMessage "whatsapp" user_id text none
      ⟨message_sid, items.length, items⟩ freshId ts)

/-- An inbound HTTP request: the form plus whether the request's
`X-Twilio-Signature` header is valid for the request URL and form under
Twilio's canonical scheme. -/
structure WebhookRequest where
  form : WebhookForm
  twilioSignatureValid : Bool

/-- The `POST /webhooks/whatsapp` endpoint as a function of the full request
and of the `twilio_validate_signature` setting.  The handler body reads only
the form fields: no code path consults the signature header or the setting,
which is what the corresponding theorem exhibits. -/
def whatsappWebhookEndpoint (req : WebhookRequest)
    (_twilioValidateSignatureSetting : Bool) (freshId ts : String) :
    WebhookResponse :=
  whatsappWebhook req.form freshId ts

/-! ## Legacy signature-validating inbound handler

From `src/app/inputs/whatsapp/inbound.py` (`handle_twilio_whatsapp_inbound`).
This handler validates the Twilio signature but calls the supervisor in-band
and returns TwiML; it never publishes to the inbound stream (its response
type has no stream entry), and nothing in the application wires it up. -/

/-- Response of the legacy handler. -/
inductive TwimlResponse where
  | misconfigured500
  | invalidSig403
  | twiml (body : String)

/-- Model of `handle_twilio_whatsapp_inbound(request, supervisor_fn, ...)`.
`supOutcome = none` means `supervisor_fn` raised; `some r` its reply. -/
def handleTwilioWhatsappInbound (req : WebhookRequest) (authToken : String)
    (validateSignature : Bool) (supOutcome : Option String)
    (emptyMessageReply : String) : TwimlResponse :=
  let afterSig :=
    let body := (req.form.Body.getD "").pyStrip
    if body = "" then TwimlResponse.twiml emptyMessageReply
    else
      match supOutcome with
      | none => .twiml "Something went wrong. Please try again."
      | some r => .twiml (if r = "" then "Done." else r)
  if validateSignature then
    if authToken = "" then .misconfigured500
    else if !req.twilioSignatureValid then .invalidSig403
    else afterSig
  else afterSig

/-! ## Claim-level definitions

Formalizations of the spec claims themselves (for the claims that turn out to
fail on the code, the claim is stated as a `Prop` so that its negation can be
proved at a concrete input). -/

/-- Internality of a messages-list element *in the claim's sense*: a tool
message (typed, or a dict with role `"tool"`), any message carrying the
`__is_handoff_back` marker, or any AI-role message with a
`transfer_back_to_supervisor` tool call. -/
def claimInternalMsg : PyMsg → Bool
  | .base m => isHandoffOrInternalBase m
  | .dictMsg role _ _ hb tcs =>
      role.pyLower = "tool" || hb ||
        tcs.any (fun n => n.pyStrip = "transfer_back_to_supervisor")

/-- Internality of a messages-list element *as the code filters it*: typed
messages via `_is_handoff_or_internal`, dict-shaped messages only via
`role == "tool"` (the dict loops consult neither the handoff-back marker nor
the tool calls). -/
def codeInternalMsg : PyMsg → Bool
  | .base m => isHandoffOrInternalBase m
  | .dictMsg role _ _ _ _ => role.pyLower = "tool"

/-- The candidate origins of a non-empty extracted reply, relative to an
internality predicate: the plain string result itself, a non-internal direct
message, the `output` field, and the contents of the non-internal messages. -/
def replySources (internal : PyMsg → Bool) : SupRes → List String
  | .pyNone => []
  | .pyStr s => [s.pyStrip]
  | .pyMsgRes m =>
      if internal (.base m) then [] else [m.content.pyStrip]
  | .pyDict output msgs _ _ _ =>
      (match output with | some o => [o.pyStrip] | none => []) ++
        ((msgs.getD []).filter (fun m => !internal m)).map
          (fun m => m.content.pyStrip)
  | .pyOther => []

/-- Claim C4 as stated: the extracted reply text is never taken from a tool
message, a message carrying the handoff-back marker, or an AI message with a
`transfer_back_to_supervisor` tool call — i.e. a non-empty reply always
originates in a message that is internal in none of those senses — and the
worker's final reply text is never empty. -/
def ClaimC4 : Prop :=
  ∀ r : SupRes,
    (extractReplyText r ≠ "" →
      extractReplyText r ∈ replySources claimInternalMsg r) ∧
    workerReplyText r ≠ ""

/-- Total number of agents' tool-list slots holding a given tool name. -/
def countAssignments (agents : List AgentDef) (tool : String) : Nat :=
  (agents.map (fun a => a.tools.count tool)).sum

/-- Claim C5 as stated, for a configured `max_tools_per_agent` cap: every
discovered, non-blacklisted tool handed to the composer is assigned to
exactly one agent, and no agent's tool list exceeds the cap. -/
def ClaimC5 (maxToolsPerAgent : Nat) : Prop :=
  ∀ (tagged : List ToolRec) (resp : List AgentDef),
    (∀ t ∈ tagged,
      countAssignments (createAgentDefinitionsWithLlm tagged resp) t.name = 1) ∧
    (∀ a ∈ createAgentDefinitionsWithLlm tagged resp,
      a.tools.length ≤ maxToolsPerAgent)

/-- Claim C9 as stated: every invocation of a validation-wrapped tool —
including calls rejected by semantic preflight or schema validation — records
exactly one grounding event `(tool_name, ok)` with
`ok := not error-like(returned result)`. -/
def ClaimC9 : Prop :=
  ∀ (name : String) (vo : ValidationOutcome) (inner : ToolResult)
    (notionNorm : Option ToolResult) (events : List ToolExecutionEvent),
    (validatingToolArun name vo inner notionNorm events).2 =
      events ++
        [{ name := name
           ok := !resultIsErrorLike
                   (validatingToolArun name vo inner notionNorm events).1 }]

/-! ## Theorems -/

/-- Claim C2: for an outbound entry with valid required fields, a fresh
`out_id`, and a successful provider call, the first dispatcher pass delivers
the message once, marks the `out_id` sent, and ACKs; a second pass over an
entry sharing that `out_id` (in particular the same entry) observes
`was_sent = true`, performs no send, and ACKs — so the `out_id` is delivered
at most once while both entries are ACKed. -/
theorem dispatcher_idempotent_redelivery
    (p p2 : OutEntry) (sentSet : List String) (d2 : Bool)
    (hout : (p.out_id.getD "").pyStrip ≠ "")
    (huser : (p.user_id.getD "").pyStrip ≠ "")
    (hreply : (p.reply_text.getD "").pyStrip ≠ "")
    (hsource : (match p.source with
                | none => "unknown"
                | some s => if s = "" then "unknown" else s).pyStrip = "whatsapp")
    (hfresh : sentSet.contains ((p.out_id.getD "").pyStrip) = false)
    (hout2 : (p2.out_id.getD "").pyStrip = (p.out_id.getD "").pyStrip)
    (huser2 : (p2.user_id.getD "").pyStrip ≠ "")
    (hreply2 : (p2.reply_text.getD "").pyStrip ≠ "") :
    (processOne p sentSet true).sends =
        [((p.user_id.getD "").pyStrip, (p.reply_text.getD "").pyStrip)] ∧
    (processOne p sentSet true).acked = true ∧
    wasSent (processOne p sentSet true).sentSet ((p.out_id.getD "").pyStrip) = true ∧
    (processOne p2 (processOne p sentSet true).sentSet d2).sends = [] ∧
    (processOne p2 (processOne p sentSet true).sentSet d2).acked = true := by
  have hfresh' : (p.out_id.getD "").pyStrip ∉ sentSet := by
    simpa using hfresh
  have h1 : processOne p sentSet true =
      { sends := [((p.user_id.getD "").pyStrip, (p.reply_text.getD "").pyStrip)]
        acked := true
        sentSet := markSent sentSet ((p.out_id.getD "").pyStrip) } := by
    unfold processOne
    simp [hout, huser, hreply, hsource, wasSent, hfresh']
  have hmark : wasSent (markSent sentSet ((p.out_id.getD "").pyStrip))
      ((p.out_id.getD "").pyStrip) = true := by
    simp [wasSent, markSent]
  have h2 : processOne p2 (markSent sentSet ((p.out_id.getD "").pyStrip)) d2 =
      { sends := []
        acked := true
        sentSet := markSent sentSet ((p.out_id.getD "").pyStrip) } := by
    unfold processOne
    simp [huser2, hreply2, hout2, hout, wasSent, markSent]
  rw [h1]
  exact ⟨rfl, rfl, hmark, by rw [h2], by rw [h2]⟩

/-- Witness for `dispatcher_idempotent_redelivery` at a concrete entry. -/
theorem dispatcher_idempotent_redelivery_witness :
    (processOne ⟨some "out-1", some "whatsapp", some "wa:+1", some "hi"⟩ [] true).sends =
        [("wa:+1", "hi")] ∧
    (processOne ⟨some "out-1", some "whatsapp", some "wa:+1", some "hi"⟩ [] true).acked = true ∧
    wasSent (processOne ⟨some "out-1", some "whatsapp", some "wa:+1", some "hi"⟩ [] true).sentSet
        "out-1" = true ∧
    (processOne ⟨some "out-1", some "whatsapp", some "wa:+1", some "hi"⟩
        (processOne ⟨some "out-1", some "whatsapp", some "wa:+1", some "hi"⟩ [] true).sentSet
        false).sends = [] ∧
    (processOne ⟨some "out-1", some "whatsapp", some "wa:+1", some "hi"⟩
        (processOne ⟨some "out-1", some "whatsapp", some "wa:+1", some "hi"⟩ [] true).sentSet
        false).acked = true :=
  dispatcher_idempotent_redelivery
    ⟨some "out-1", some "whatsapp", some "wa:+1", some "hi"⟩
    ⟨some "out-1", some "whatsapp", some "wa:+1", some "hi"⟩
    [] false (by decide) (by decide) (by decide) (by decide) (by decide)
    (by decide) (by decide) (by decide)

/-- Claim C8: a `GET /media/{rel_path}` request whose resolved path is neither
the resolved media root nor a descendant of it is answered 400; a resolved
path under the root that is absent or not a regular file is answered 404; and
any served path is at or under the root and is a regular file. -/
theorem media_host_only_serves_under_root
    (fs : List String → FileKind) (root rel : List String) :
    (¬ (resolveComponents root = resolveComponents (root ++ rel) ∨
        resolveComponents root ∈ pathParents (resolveComponents (root ++ rel))) →
      getMedia fs root rel = .bad400) ∧
    ((resolveComponents root = resolveComponents (root ++ rel) ∨
        resolveComponents root ∈ pathParents (resolveComponents (root ++ rel))) →
      fs (resolveComponents (root ++ rel)) ≠ .file →
      getMedia fs root rel = .notFound404) ∧
    (∀ q, getMedia fs root rel = .ok200 q →
      (resolveComponents root = q ∨ resolveComponents root ∈ pathParents q) ∧
      fs q = .file) := by
  unfold getMedia safeResolveUnderRoot
  by_cases h : resolveComponents root = resolveComponents (root ++ rel) ∨
      resolveComponents root ∈ pathParents (resolveComponents (root ++ rel))
  · simp only [if_pos h]
    refine ⟨fun hc => absurd h hc, fun _ hf => by simp [hf], fun q hq => ?_⟩
    by_cases hf : fs (resolveComponents (root ++ rel)) = .file
    · simp only [hf, ne_eq, not_true_eq_false, if_false] at hq
      cases hq
      exact ⟨h, hf⟩
    · simp [hf] at hq
  · simp only [if_neg h]
    exact ⟨fun _ => by trivial, fun hc => absurd hc h, fun q hq => by cases hq⟩

/-- Witness for `media_host_only_serves_under_root`: a `..` traversal out of
the media root is rejected with 400. -/
theorem media_host_only_serves_under_root_witness :
    getMedia (fun _ => FileKind.file) ["srv", "media"] ["..", "secret"] =
      .bad400 :=
  (media_host_only_serves_under_root (fun _ => FileKind.file)
      ["srv", "media"] ["..", "secret"]).1 (by decide)

/-- Claim C6: an inbound webhook POST with an empty `From`, or with an empty
(trimmed) `Body` and zero media items, is answered 400 and publishes nothing;
any other POST publishes an inbound entry whose `message_id` is the freshly
generated UUID and whose `conversation_id` defaults to that `message_id`, and
is answered 200. -/
theorem ingress_rejects_or_publishes_fresh_id
    (f : WebhookForm) (freshId ts : String) :
    (((f.From.getD "").pyStrip = "" ∨
        ((f.Body.getD "").pyStrip = "" ∧ (extractMediaItems f).length = 0)) →
      whatsappWebhook f freshId ts = .bad400) ∧
    (¬ ((f.From.getD "").pyStrip = "" ∨
        ((f.Body.getD "").pyStrip = "" ∧ (extractMediaItems f).length = 0)) →
      ∃ e, whatsappWebhook f freshId ts = .ok200 e ∧
        e.message_id = freshId ∧ e.conversation_id = freshId) := by
  unfold whatsappWebhook
  by_cases h : (f.From.getD "").pyStrip = "" ∨
      ((f.Body.getD "").pyStrip = "" ∧ ¬ (extractMediaItems f).length ≠ 0)
  · have h' : (f.From.getD "").pyStrip = "" ∨
        ((f.Body.getD "").pyStrip = "" ∧ (extractMediaItems f).length = 0) := by
      simpa using h
    refine ⟨fun _ => by simp only [if_pos h], fun hc => absurd h' hc⟩
  · have h' : ¬ ((f.From.getD "").pyStrip = "" ∨
        ((f.Body.getD "").pyStrip = "" ∧ (extractMediaItems f).length = 0)) := by
      simpa using h
    refine ⟨fun hc => absurd hc h', fun _ => ?_⟩
    simp only [if_neg h]
    exact ⟨_, rfl, rfl, rfl⟩

/-- Witness for `ingress_rejects_or_publishes_fresh_id`: a valid text message
publishes an entry with the fresh id as both `message_id` and
`conversation_id`. -/
theorem ingress_rejects_or_publishes_fresh_id_witness :
    ∃ e, whatsappWebhook
        ⟨some "whatsapp:+15550001111", some "hi", some "SM1", some "0",
          fun _ => none, fun _ => none⟩ "uuid-1" "2026-01-01T00:00:00" =
        .ok200 e ∧
      e.message_id = "uuid-1" ∧ e.conversation_id = "uuid-1" :=
  (ingress_rejects_or_publishes_fresh_id
      ⟨some "whatsapp:+15550001111", some "hi", some "SM1", some "0",
        fun _ => none, fun _ => none⟩ "uuid-1" "2026-01-01T00:00:00").2
    (by decide)

/-- Helper: every payload published by the tail of `_process_message` carries
status `"success"`. -/
theorem finishMessage_status_success (ctx : InboundCtx) (pre : PreResult)
    (result : SupRes) (events : List ToolExecutionEvent) (o : WorkerOracle)
    (freshOutId ts : String) :
    ∀ pl ∈ (finishMessage ctx pre result events o freshOutId ts).published,
      pl.status = "success" := by
  intro pl hpl
  unfold finishMessage at hpl
  by_cases hp : o.publishOk
  · simp only [hp, if_true] at hpl
    rw [List.mem_singleton] at hpl
    subst hpl
    by_cases ha : pre.inbound_has_audio
    · simp only [ha, if_true]
      cases o.audioResult <;> rfl
    · simp only [ha, if_false]
      rfl
  · simp only [hp, if_false] at hpl
    cases hpl

/-- Claim C10: every outbound envelope the worker publishes — for supervisor
results of any structured status, and for pre-supervisor immediate replies —
carries `status = "success"`; an envelope with status `"error"` is never
published. -/
theorem worker_publishes_only_success_status
    (streamId : String) (p : InPayload) (o : WorkerOracle)
    (freshOutId ts : String) (pl : OutPayload)
    (hmem : pl ∈ (processMessage streamId p o freshOutId ts).published) :
    pl.status = "success" ∧ pl.status ≠ "error" := by
  have hs : pl.status = "success" := by
    unfold processMessage at hmem
    cases hpre : o.pre with
    | none => simp [hpre] at hmem
    | some pre =>
      simp only [hpre] at hmem
      cases himm : pre.immediate_reply with
      | some imm =>
        simp only [himm] at hmem
        exact finishMessage_status_success _ _ _ _ _ _ _ pl hmem
      | none =>
        simp only [himm] at hmem
        cases hsup : o.sup with
        | none => simp [hsup] at hmem
        | some r =>
          simp only [hsup] at hmem
          exact finishMessage_status_success _ _ _ _ _ _ _ pl hmem
  exact ⟨hs, by rw [hs]; decide⟩

/-- Witness for `worker_publishes_only_success_status` at a concrete
processed message. -/
theorem worker_publishes_only_success_status_witness :
    (buildOutboundPayload
        (buildInboundContext "1-0"
          ⟨some "hello", some "whatsapp", some "wa:+1", none, some "m1",
            some "c1", none⟩)
        "All done" "out-9" "2026-01-01T00:00:00" true).status = "success" ∧
    (buildOutboundPayload
        (buildInboundContext "1-0"
          ⟨some "hello", some "whatsapp", some "wa:+1", none, some "m1",
            some "c1", none⟩)
        "All done" "out-9" "2026-01-01T00:00:00" true).status ≠ "error" :=
  worker_publishes_only_success_status "1-0"
    ⟨some "hello", some "whatsapp", some "wa:+1", none, some "m1", some "c1",
      none⟩
    { pre := some
        { supervisor_input := "", original_text := "hello"
          english_text := "hello", detected_language := "English"
          is_english := true, inbound_has_audio := false
          immediate_reply := some "All done" }
      sup := none, supEvents := [], audioResult := none
      metadataParses := true, publishOk := true }
    "out-9" "2026-01-01T00:00:00" _ (List.Mem.head _)

/-- Unfolding equation: preprocessing raised. -/
theorem processMessage_pre_none (streamId : String) (p : InPayload)
    (o : WorkerOracle) (freshOutId ts : String) (h : o.pre = none) :
    processMessage streamId p o freshOutId ts =
      { published := [], acked := false, memWritten := false } := by
  unfold processMessage
  rw [h]

/-- Unfolding equation: the preprocessor produced an immediate reply. -/
theorem processMessage_immediate (streamId : String) (p : InPayload)
    (o : WorkerOracle) (freshOutId ts : String) (pre : PreResult)
    (imm : String) (h1 : o.pre = some pre)
    (h2 : pre.immediate_reply = some imm) :
    processMessage streamId p o freshOutId ts =
      finishMessage (buildInboundContext streamId p) pre (.pyStr imm) [] o
        freshOutId ts := by
  unfold processMessage
  rw [h1]
  simp only [h2]

/-- Unfolding equation: no immediate reply and the supervisor raised. -/
theorem processMessage_sup_none (streamId : String) (p : InPayload)
    (o : WorkerOracle) (freshOutId ts : String) (pre : PreResult)
    (h1 : o.pre = some pre) (h2 : pre.immediate_reply = none)
    (h3 : o.sup = none) :
    processMessage streamId p o freshOutId ts =
      { published := [], acked := false, memWritten := false } := by
  unfold processMessage
  rw [h1]
  simp only [h2, h3]

/-- Unfolding equation: no immediate reply and the supervisor returned. -/
theorem processMessage_sup_some (streamId : String) (p : InPayload)
    (o : WorkerOracle) (freshOutId ts : String) (pre : PreResult) (r : SupRes)
    (h1 : o.pre = some pre) (h2 : pre.immediate_reply = none)
    (h3 : o.sup = some r) :
    processMessage streamId p o freshOutId ts =
      finishMessage (buildInboundContext streamId p) pre r o.supEvents o
        freshOutId ts := by
  unfold processMessage
  rw [h1]
  simp only [h2, h3]

/-- Claim C1: the worker ACKs an inbound entry only after the outbound envelope
was successfully published (an ACK implies a publish happened and succeeded),
and whenever preprocessing raises, the supervisor raises, or the outbound
publish fails, the worker returns without ACKing, leaving the entry pending
for redelivery. -/
theorem worker_acks_only_after_publish
    (streamId : String) (p : InPayload) (o : WorkerOracle)
    (freshOutId ts : String) :
    ((processMessage streamId p o freshOutId ts).acked = true →
      (processMessage streamId p o freshOutId ts).published ≠ [] ∧
        o.publishOk = true) ∧
    (o.pre = none →
      processMessage streamId p o freshOutId ts =
        { published := [], acked := false, memWritten := false }) ∧
    ((∀ pre, o.pre = some pre → pre.immediate_reply = none) → o.sup = none →
      processMessage streamId p o freshOutId ts =
        { published := [], acked := false, memWritten := false }) ∧
    (o.publishOk = false →
      (processMessage streamId p o freshOutId ts).acked = false ∧
        (processMessage streamId p o freshOutId ts).published = []) := by
  have hfin : ∀ ctx pre result events,
      ((finishMessage ctx pre result events o freshOutId ts).acked = true →
        (finishMessage ctx pre result events o freshOutId ts).published ≠ [] ∧
          o.publishOk = true) ∧
      (o.publishOk = false →
        (finishMessage ctx pre result events o freshOutId ts).acked = false ∧
          (finishMessage ctx pre result events o freshOutId ts).published = []) := by
    intro ctx pre result events
    unfold finishMessage
    by_cases hp : o.publishOk
    · simp [hp]
    · simp [hp]
  have hcases : (∃ pre, o.pre = some pre ∧
        ((∃ imm, pre.immediate_reply = some imm) ∨
          (pre.immediate_reply = none ∧ ∃ r, o.sup = some r))) ∨
      processMessage streamId p o freshOutId ts =
        { published := [], acked := false, memWritten := false } := by
    cases hpre : o.pre with
    | none => exact Or.inr (processMessage_pre_none _ _ _ _ _ hpre)
    | some pre =>
      cases himm : pre.immediate_reply with
      | some imm => exact Or.inl ⟨pre, rfl, Or.inl ⟨imm, himm⟩⟩
      | none =>
        cases hsup : o.sup with
        | none =>
          exact Or.inr (processMessage_sup_none _ _ _ _ _ _ hpre himm hsup)
        | some r => exact Or.inl ⟨pre, rfl, Or.inr ⟨himm, r, rfl⟩⟩
  have hred : (∃ pre result events,
        processMessage streamId p o freshOutId ts =
          finishMessage (buildInboundContext streamId p) pre result events o
            freshOutId ts) ∨
      processMessage streamId p o freshOutId ts =
        { published := [], acked := false, memWritten := false } := by
    rcases hcases with ⟨pre, hpre, ⟨imm, himm⟩ | ⟨himm, r, hsup⟩⟩ | heq
    · exact Or.inl ⟨pre, _, _,
        processMessage_immediate _ _ _ _ _ pre imm hpre himm⟩
    · exact Or.inl ⟨pre, _, _,
        processMessage_sup_some _ _ _ _ _ pre r hpre himm hsup⟩
    · exact Or.inr heq
  have hmain : ((processMessage streamId p o freshOutId ts).acked = true →
        (processMessage streamId p o freshOutId ts).published ≠ [] ∧
          o.publishOk = true) ∧
      (o.publishOk = false →
        (processMessage streamId p o freshOutId ts).acked = false ∧
          (processMessage streamId p o freshOutId ts).published = []) := by
    rcases hred with ⟨pre, result, events, heq⟩ | heq
    · rw [heq]
      exact hfin _ _ _ _
    · rw [heq]
      refine ⟨fun h => absurd h (by decide), fun _ => ⟨rfl, rfl⟩⟩
  refine ⟨hmain.1, fun hc => processMessage_pre_none _ _ _ _ _ hc,
    fun hall hsup => ?_, hmain.2⟩
  cases hpre : o.pre with
  | none => exact processMessage_pre_none _ _ _ _ _ hpre
  | some pre =>
    exact processMessage_sup_none _ _ _ _ _ _ hpre (hall pre hpre) hsup

/-- Witness for `worker_acks_only_after_publish`: a failed outbound publish
leaves the entry un-ACKed. -/
theorem worker_acks_only_after_publish_witness :
    (processMessage "1-0"
        ⟨some "hello", some "whatsapp", some "wa:+1", none, some "m1",
          some "c1", none⟩
        { pre := some
            { supervisor_input := "", original_text := "hello"
              english_text := "hello", detected_language := "English"
              is_english := true, inbound_has_audio := false
              immediate_reply := some "All done" }
          sup := none, supEvents := [], audioResult := none
          metadataParses := true, publishOk := false }
        "out-9" "ts-1").acked = false ∧
    (processMessage "1-0"
        ⟨some "hello", some "whatsapp", some "wa:+1", none, some "m1",
          some "c1", none⟩
        { pre := some
            { supervisor_input := "", original_text := "hello"
              english_text := "hello", detected_language := "English"
              is_english := true, inbound_has_audio := false
              immediate_reply := some "All done" }
          sup := none, supEvents := [], audioResult := none
          metadataParses := true, publishOk := false }
        "out-9" "ts-1").published = [] :=
  (worker_acks_only_after_publish "1-0"
      ⟨some "hello", some "whatsapp", some "wa:+1", none, some "m1", some "c1",
        none⟩
      { pre := some
          { supervisor_input := "", original_text := "hello"
            english_text := "hello", detected_language := "English"
            is_english := true, inbound_has_audio := false
            immediate_reply := some "All done" }
        sup := none, supEvents := [], audioResult := none
        metadataParses := true, publishOk := false }
      "out-9" "ts-1").2.2.2 rfl

/-- The grounding predicate, spelled out: some recorded event succeeded on a
non-internal, non-`localAudio_` tool. -/
theorem anyGroundedSuccess_iff (events : List ToolExecutionEvent) :
    anyGroundedSuccess false events = true ↔
      ∃ ev ∈ events, ev.ok = true ∧ isInternalToolName ev.name = false ∧
        ev.name.pyStartsWith "localAudio_" = false := by
  simp [anyGroundedSuccess, List.any_eq_true, Bool.and_eq_true,
    Bool.not_eq_true', and_assoc]

/-- The memory gate of `finishMessage`: memory is written exactly when the
normalized structured status is `"success"` and the request was grounded. -/
theorem finishMessage_memWritten (ctx : InboundCtx) (pre : PreResult)
    (result : SupRes) (events : List ToolExecutionEvent) (o : WorkerOracle)
    (freshOutId ts : String) :
    (finishMessage ctx pre result events o freshOutId ts).memWritten = true ↔
      (statusNorm (extractStructuredStatus result) = "success" ∧
        anyGroundedSuccess false events = true) := by
  unfold finishMessage
  by_cases hp : o.publishOk
  · simp [hp, Bool.and_eq_true, decide_eq_true_eq]
  · simp [hp, Bool.and_eq_true, decide_eq_true_eq]

/-- Claim C3: the worker writes memory documents (conversation state, user
profile, and the appended memory event) exactly when a supervisor result was
obtained whose structured status is `"success"` and at least one non-internal
tool (no `transfer_to_*`, `transfer_back_to_supervisor`,
`memory_get_context`, `get_current_datetime`, nor — by default — a
`localAudio_*` helper) recorded a successful execution event; in every other
case, including immediate pre-supervisor replies, no memory document is
written.  The hypothesis restricts the structured status to the values of the
`SupervisorStructuredReply` schema (`Literal["success", "error"]`, or absent). -/
theorem worker_memory_gate
    (streamId : String) (p : InPayload) (o : WorkerOracle)
    (freshOutId ts : String)
    (hlit : ∀ r, o.sup = some r →
      extractStructuredStatus r = some "success" ∨
      extractStructuredStatus r = some "error" ∨
      extractStructuredStatus r = none) :
    (processMessage streamId p o freshOutId ts).memWritten = true ↔
      ∃ pre r, o.pre = some pre ∧ pre.immediate_reply = none ∧
        o.sup = some r ∧ extractStructuredStatus r = some "success" ∧
        ∃ ev ∈ o.supEvents, ev.ok = true ∧ isInternalToolName ev.name = false ∧
          ev.name.pyStartsWith "localAudio_" = false := by
  cases hpre : o.pre with
  | none =>
    rw [processMessage_pre_none _ _ _ _ _ hpre]
    constructor
    · intro h
      exact absurd h (by decide)
    · rintro ⟨pre', r, hpre', _⟩
      cases hpre'
  | some pre =>
    cases himm : pre.immediate_reply with
    | some imm =>
      rw [processMessage_immediate _ _ _ _ _ pre imm hpre himm]
      rw [finishMessage_memWritten]
      constructor
      · rintro ⟨hs, _⟩
        have hred : statusNorm (extractStructuredStatus (SupRes.pyStr imm)) =
            statusNorm none := rfl
        rw [hred] at hs
        exact absurd hs (by decide)
      · rintro ⟨pre', r, hpre', himm', _⟩
        injection hpre' with h'
        subst h'
        rw [himm] at himm'
        cases himm'
    | none =>
      cases hsup : o.sup with
      | none =>
        rw [processMessage_sup_none _ _ _ _ _ _ hpre himm hsup]
        constructor
        · intro h
          exact absurd h (by decide)
        · rintro ⟨pre', r, hpre', himm', hsup', _⟩
          cases hsup'
      | some r =>
        rw [processMessage_sup_some _ _ _ _ _ pre r hpre himm hsup]
        rw [finishMessage_memWritten]
        have hl := hlit r hsup
        constructor
        · rintro ⟨hs, hg⟩
          have hstat : extractStructuredStatus r = some "success" := by
            rcases hl with h | h | h
            · exact h
            · rw [h] at hs
              exact absurd hs (by decide)
            · rw [h] at hs
              exact absurd hs (by decide)
          exact ⟨pre, r, rfl, himm, rfl, hstat,
            (anyGroundedSuccess_iff _).1 hg⟩
        · rintro ⟨pre', r', hpre', himm', hsup', hstat, hev⟩
          injection hsup' with h'
          subst h'
          refine ⟨by rw [hstat]; decide, (anyGroundedSuccess_iff _).2 hev⟩

/-- Witness for `worker_memory_gate`: a grounded, successful supervisor run
writes memory. -/
theorem worker_memory_gate_witness :
    (processMessage "1-0"
        ⟨some "note it", some "whatsapp", some "wa:+1", none, some "m1",
          some "c1", none⟩
        { pre := some
            { supervisor_input := "INPUT", original_text := "note it"
              english_text := "note it", detected_language := "English"
              is_english := true, inbound_has_audio := false
              immediate_reply := none }
          sup := some (.pyDict none none (some "success") none none)
          supEvents := [{ name := "notionApi_API-post-page", ok := true }]
          audioResult := none, metadataParses := true
          publishOk := true }
        "out-1" "ts-1").memWritten = true :=
  (worker_memory_gate "1-0"
      ⟨some "note it", some "whatsapp", some "wa:+1", none, some "m1",
        some "c1", none⟩
      { pre := some
          { supervisor_input := "INPUT", original_text := "note it"
            english_text := "note it", detected_language := "English"
            is_english := true, inbound_has_audio := false
            immediate_reply := none }
        sup := some (.pyDict none none (some "success") none none)
        supEvents := [{ name := "notionApi_API-post-page", ok := true }]
        audioResult := none, metadataParses := true
        publishOk := true }
      "out-1" "ts-1"
      (fun r hr => by
        injection hr with h
        subst h
        exact Or.inl (by decide))).mpr
    ⟨{ supervisor_input := "INPUT", original_text := "note it"
       english_text := "note it", detected_language := "English"
       is_english := true, inbound_has_audio := false
       immediate_reply := none },
      .pyDict none none (some "success") none none, rfl, rfl, rfl, by decide,
      { name := "notionApi_API-post-page", ok := true }, List.Mem.head _,
      rfl, by decide, by decide⟩

/-- Claim C9, counterexample: claim C9 is false — a call rejected by semantic
preflight returns the error payload without recording any grounding event
(the collector stays empty). -/
theorem validating_tool_counterexample : ¬ ClaimC9 := fun h => by
  have hc := h "notionApi_API-post-page"
    { preflightErr := some "preflight error payload", schemaErr := none }
    .otherR none []
  simp only [validatingToolArun] at hc
  cases hc

/-- Claim C9, amended: a grounding event `(tool_name, ok)` with
`ok := not error-like(result)` is recorded exactly for the invocations that
pass normalization, semantic preflight, and schema validation and therefore
reach the underlying tool; an invocation rejected by preflight or schema
validation returns the canonical error payload before the call and records
nothing. -/
theorem validating_tool_grounding_event
    (name : String) (vo : ValidationOutcome) (inner : ToolResult)
    (notionNorm : Option ToolResult) (events : List ToolExecutionEvent) :
    (vo.preflightErr = none → vo.schemaErr = none →
      (validatingToolArun name vo inner notionNorm events).2 =
        events ++
          [{ name := name
             ok := !resultIsErrorLike
                     (validatingToolArun name vo inner notionNorm events).1 }]) ∧
    ((vo.preflightErr ≠ none ∨ vo.schemaErr ≠ none) →
      (validatingToolArun name vo inner notionNorm events).2 = events) := by
  cases hpf : vo.preflightErr with
  | some e =>
    constructor
    · intro hc
      cases hc
    · intro _
      unfold validatingToolArun
      rw [hpf]
  | none =>
    cases hse : vo.schemaErr with
    | some e =>
      constructor
      · intro _ hc
        cases hc
      · intro _
        unfold validatingToolArun
        rw [hpf, hse]
    | none =>
      constructor
      · intro _ _
        unfold validatingToolArun
        rw [hpf, hse]
        cases notionNorm <;> rfl
      · intro hc
        rcases hc with hc | hc
        · exact absurd rfl hc
        · exact absurd rfl hc

/-- Witness for `validating_tool_grounding_event`: a call that passes
validation and returns a Notion-normalized validation error records one
non-`ok` grounding event. -/
theorem validating_tool_grounding_event_witness :
    (validatingToolArun "notionApi_API-post-page"
        { preflightErr := none, schemaErr := none }
        (.dictR [("status", .int 400), ("code", .str "validation_error")])
        (some (.strR "normalized"
          (some (.obj [("error_type", .str "validation_error")])))) []).2 =
      [] ++
        [{ name := "notionApi_API-post-page"
           ok := !resultIsErrorLike
                   (validatingToolArun "notionApi_API-post-page"
                     { preflightErr := none, schemaErr := none }
                     (.dictR [("status", .int 400),
                       ("code", .str "validation_error")])
                     (some (.strR "normalized"
                       (some (.obj [("error_type", .str "validation_error")]))))
                     []).1 }] :=
  (validating_tool_grounding_event "notionApi_API-post-page"
      { preflightErr := none, schemaErr := none }
      (.dictR [("status", .int 400), ("code", .str "validation_error")])
      (some (.strR "normalized"
        (some (.obj [("error_type", .str "validation_error")])))) []).1
    rfl rfl

/-- Membership is preserved by first-occurrence deduplication. -/
theorem mem_dedupKeepFirst (l : List String) (a : String) :
    a ∈ dedupKeepFirst l ↔ a ∈ l := by
  induction l with
  | nil => simp [dedupKeepFirst]
  | cons x xs ih =>
    by_cases hax : a = x
    · subst hax
      simp [dedupKeepFirst]
    · simp [dedupKeepFirst, List.mem_filter, hax, ih]

/-- Claim C5, counterexample: claim C5 is false — when the LLM assigns one tool
to two agents, the composer returns the duplicate assignment unchanged (its
post-check only covers omitted tools, and no `max_tools_per_agent` check
exists), so the tool is not assigned to exactly one agent. -/
theorem composer_counterexample : ¬ ClaimC5 8 := fun h => by
  have hc := (h [⟨"t1", "s"⟩]
      [⟨"a1", ["t1"], "s"⟩, ⟨"a2", ["t1"], "s"⟩]).1 ⟨"t1", "s"⟩
      (List.Mem.head _)
  exact absurd hc (by decide)

/-- Coverage core of the composer's missing-tool fixup: with at least one
agent, every input name ends up in some agent's tool list. -/
theorem composer_coverage_helper (names : List String) (agents : List AgentDef)
    (x : String) (hx : x ∈ names) (hagents : agents ≠ []) :
    ∃ a ∈ (let assigned := agents.flatMap (fun a => a.tools);
        let missing := (dedupKeepFirst names).filter
          (fun n => !assigned.contains n);
        if missing.isEmpty then agents
        else match agents with
          | [] => ([] : List AgentDef)
          | a0 :: rest => { a0 with tools := a0.tools ++ missing } :: rest),
      x ∈ a.tools := by
  simp only
  by_cases hcon : (agents.flatMap (fun a => a.tools)).contains x = true
  · have hmem : x ∈ agents.flatMap (fun a => a.tools) := by simpa using hcon
    obtain ⟨a, ha, hxa⟩ := List.mem_flatMap.mp hmem
    by_cases hmiss : ((dedupKeepFirst names).filter
        (fun n => !(agents.flatMap (fun a => a.tools)).contains n)).isEmpty = true
    · rw [if_pos hmiss]
      exact ⟨a, ha, hxa⟩
    · rw [if_neg hmiss]
      cases agents with
      | nil => exact absurd rfl hagents
      | cons a0 rest =>
        rcases List.mem_cons.mp ha with rfl | ha
        · exact ⟨_, List.Mem.head _, List.mem_append_left _ hxa⟩
        · exact ⟨a, List.mem_cons_of_mem _ ha, hxa⟩
  · have hcf : (agents.flatMap (fun a => a.tools)).contains x = false :=
      Bool.eq_false_iff.mpr hcon
    have hxm : x ∈ (dedupKeepFirst names).filter
        (fun n => !(agents.flatMap (fun a => a.tools)).contains n) := by
      rw [List.mem_filter]
      exact ⟨(mem_dedupKeepFirst _ _).mpr hx, by rw [hcf]; rfl⟩
    have hne : ¬ ((dedupKeepFirst names).filter
        (fun n => !(agents.flatMap (fun a => a.tools)).contains n)).isEmpty = true := by
      cases hfil : (dedupKeepFirst names).filter
          (fun n => !(agents.flatMap (fun a => a.tools)).contains n) with
      | nil =>
        rw [hfil] at hxm
        cases hxm
      | cons y ys =>
        simp
    rw [if_neg hne]
    cases agents with
    | nil => exact absurd rfl hagents
    | cons a0 rest =>
      exact ⟨_, List.Mem.head _, List.mem_append_right _ hxm⟩

/-- Claim C5, amended: when the LLM response contains at least one agent,
every discovered tool record handed to the composer is assigned to **at
least** one agent (tools the LLM omitted are appended to the first agent of
the response), and blacklisted tools are dropped at discovery so they never
reach the composer; the composer enforces neither uniqueness of assignment
nor the `max_tools_per_agent` cap. -/
theorem composer_assigns_all_and_respects_blacklist
    (tagged : List ToolRec) (resp : List AgentDef)
    (allTools : List (String × List String))
    (blacklist : String → List String) :
    (resp ≠ [] →
      ∀ t ∈ tagged, ∃ a ∈ createAgentDefinitionsWithLlm tagged resp,
        t.name ∈ a.tools) ∧
    (∀ rec ∈ loadMcpTools allTools blacklist,
      rec.name ∉ blacklist rec.sourceServer) := by
  constructor
  · intro hresp t ht
    have hne : tagged.isEmpty = false := by
      cases tagged with
      | nil => cases ht
      | cons a l => rfl
    have hagents :
        resp.map (fun a => { a with name := normalizeAgentName a.name }) ≠ [] := by
      cases resp with
      | nil => exact absurd rfl hresp
      | cons a l => simp
    unfold createAgentDefinitionsWithLlm
    rw [hne]
    rw [if_neg (by decide : ¬ ((false : Bool) = true))]
    exact composer_coverage_helper (tagged.map (fun t => t.name))
      (resp.map (fun a => { a with name := normalizeAgentName a.name }))
      t.name (List.mem_map.mpr ⟨t, ht, rfl⟩) hagents
  · intro rec hrec
    unfold loadMcpTools at hrec
    obtain ⟨st, hst, hrec2⟩ := List.mem_flatMap.mp hrec
    obtain ⟨tname, htf, heq⟩ := List.mem_map.mp hrec2
    obtain ⟨htl, hbl⟩ := List.mem_filter.mp htf
    subst heq
    intro hmem
    simp only [Bool.not_eq_true'] at hbl
    have hct : (blacklist st.1).contains tname = true := by simpa using hmem
    rw [hbl] at hct
    cases hct

/-- Witness for `composer_assigns_all_and_respects_blacklist`: a tool the LLM
omitted is attached to the (first) agent. -/
theorem composer_assigns_all_and_respects_blacklist_witness :
    ∃ a ∈ createAgentDefinitionsWithLlm [⟨"t1", "s"⟩]
        [⟨"A 1", ["other"], "s"⟩],
      "t1" ∈ a.tools :=
  (composer_assigns_all_and_respects_blacklist [⟨"t1", "s"⟩]
      [⟨"A 1", ["other"], "s"⟩] [("s", ["good", "bad"])]
      (fun _ => ["bad"])).1 (List.cons_ne_nil _ _) ⟨"t1", "s"⟩
    (List.Mem.head _)

/-- On typed messages, the code's internality filter coincides with
`_is_handoff_or_internal`. -/
theorem codeInternalMsg_base (m : BaseMsg) :
    codeInternalMsg (.base m) = isHandoffOrInternalBase m := rfl

/-- Soundness of the supervisor pick: a picked answer is the stripped content
of some non-internal typed AI message of the list. -/
theorem pickSupervisorAnswer_sound (ms : List PyMsg) (s : String)
    (h : pickSupervisorAnswer ms = some s) :
    ∃ m ∈ ms, m.isBaseMessage = true ∧ isHandoffOrInternal m = false ∧
      m.content.pyStrip = s ∧ s ≠ "" := by
  induction ms with
  | nil => cases h
  | cons m rest ih =>
    unfold pickSupervisorAnswer at h
    by_cases hint : isHandoffOrInternal m = true
    · rw [if_pos hint] at h
      obtain ⟨m', hm', h0, h1, h2, h3⟩ := ih h
      exact ⟨m', List.mem_cons_of_mem _ hm', h0, h1, h2, h3⟩
    · rw [if_neg hint] at h
      match m, hint, h with
      | .base (.aiMsg (some n) c hb tcs), hint, h =>
        have h2 : (if n = "supervisor" ∧ c.pyStrip ≠ "" then some c.pyStrip
            else pickSupervisorAnswer rest) = some s := h
        by_cases hcond : n = "supervisor" ∧ c.pyStrip ≠ ""
        · rw [if_pos hcond] at h2
          injection h2 with h'
          exact ⟨.base (.aiMsg (some n) c hb tcs), List.Mem.head _, rfl,
            Bool.eq_false_iff.mpr hint, h', h' ▸ hcond.2⟩
        · rw [if_neg hcond] at h2
          obtain ⟨m', hm', h0, h1, h2, h3⟩ := ih h2
          exact ⟨m', List.mem_cons_of_mem _ hm', h0, h1, h2, h3⟩
      | .base (.aiMsg none c hb tcs), hint, h =>
        obtain ⟨m', hm', h0, h1, h2, h3⟩ :=
          ih (show pickSupervisorAnswer rest = some s from h)
        exact ⟨m', List.mem_cons_of_mem _ hm', h0, h1, h2, h3⟩
      | .base (.toolMsg c hb), hint, h =>
        obtain ⟨m', hm', h0, h1, h2, h3⟩ :=
          ih (show pickSupervisorAnswer rest = some s from h)
        exact ⟨m', List.mem_cons_of_mem _ hm', h0, h1, h2, h3⟩
      | .base (.otherMsg c hb), hint, h =>
        obtain ⟨m', hm', h0, h1, h2, h3⟩ :=
          ih (show pickSupervisorAnswer rest = some s from h)
        exact ⟨m', List.mem_cons_of_mem _ hm', h0, h1, h2, h3⟩
      | .dictMsg role name c hb tcs, hint, h =>
        obtain ⟨m', hm', h0, h1, h2, h3⟩ :=
          ih (show pickSupervisorAnswer rest = some s from h)
        exact ⟨m', List.mem_cons_of_mem _ hm', h0, h1, h2, h3⟩

/-- Soundness of the non-internal fallback pick. -/
theorem pickNonInternalAnswer_sound (ms : List PyMsg) (s : String)
    (h : pickNonInternalAnswer ms = some s) :
    ∃ m ∈ ms, m.isBaseMessage = true ∧ isHandoffOrInternal m = false ∧
      m.content.pyStrip = s ∧ s ≠ "" := by
  induction ms with
  | nil => cases h
  | cons m rest ih =>
    unfold pickNonInternalAnswer at h
    by_cases hint : isHandoffOrInternal m = true
    · rw [if_pos hint] at h
      obtain ⟨m', hm', h0, h1, h2, h3⟩ := ih h
      exact ⟨m', List.mem_cons_of_mem _ hm', h0, h1, h2, h3⟩
    · rw [if_neg hint] at h
      match m, hint, h with
      | .base (.aiMsg n c hb tcs), hint, h =>
        have h2 : (if c.pyStrip ≠ "" then some c.pyStrip
            else pickNonInternalAnswer rest) = some s := h
        by_cases hcond : c.pyStrip ≠ ""
        · rw [if_pos hcond] at h2
          injection h2 with h'
          exact ⟨.base (.aiMsg n c hb tcs), List.Mem.head _, rfl,
            Bool.eq_false_iff.mpr hint, h', h' ▸ hcond⟩
        · rw [if_neg hcond] at h2
          obtain ⟨m', hm', h0, h1, h2, h3⟩ := ih h2
          exact ⟨m', List.mem_cons_of_mem _ hm', h0, h1, h2, h3⟩
      | .base (.toolMsg c hb), hint, h =>
        obtain ⟨m', hm', h0, h1, h2, h3⟩ :=
          ih (show pickNonInternalAnswer rest = some s from h)
        exact ⟨m', List.mem_cons_of_mem _ hm', h0, h1, h2, h3⟩
      | .base (.otherMsg c hb), hint, h =>
        obtain ⟨m', hm', h0, h1, h2, h3⟩ :=
          ih (show pickNonInternalAnswer rest = some s from h)
        exact ⟨m', List.mem_cons_of_mem _ hm', h0, h1, h2, h3⟩
      | .dictMsg role name c hb tcs, hint, h =>
        obtain ⟨m', hm', h0, h1, h2, h3⟩ :=
          ih (show pickNonInternalAnswer rest = some s from h)
        exact ⟨m', List.mem_cons_of_mem _ hm', h0, h1, h2, h3⟩

/-- Soundness of the first dict-shaped loop: a picked answer comes from a
dict message whose role is not `"tool"` (the only internality the code
checks on dicts). -/
theorem pickSupervisorDict_sound (ms : List PyMsg) (s : String)
    (h : pickSupervisorDict ms = some s) :
    ∃ m ∈ ms, codeInternalMsg m = false ∧ m.content.pyStrip = s ∧ s ≠ "" := by
  induction ms with
  | nil => cases h
  | cons m rest ih =>
    match m, h with
    | .dictMsg role name c hb tcs, h =>
      have h2 : (if c.pyStrip = "" ∨ role.pyLower = "tool"
          then pickSupervisorDict rest
          else if name = some "supervisor" then some c.pyStrip
          else pickSupervisorDict rest) = some s := h
      by_cases hskip : c.pyStrip = "" ∨ role.pyLower = "tool"
      · rw [if_pos hskip] at h2
        obtain ⟨m', hm', h1, h2, h3⟩ := ih h2
        exact ⟨m', List.mem_cons_of_mem _ hm', h1, h2, h3⟩
      · rw [if_neg hskip] at h2
        push_neg at hskip
        by_cases hname : name = some "supervisor"
        · rw [if_pos hname] at h2
          injection h2 with h'
          refine ⟨.dictMsg role name c hb tcs, List.Mem.head _, ?_, h',
            h' ▸ hskip.1⟩
          simp only [codeInternalMsg]
          exact decide_eq_false hskip.2
        · rw [if_neg hname] at h2
          obtain ⟨m', hm', h1, h2, h3⟩ := ih h2
          exact ⟨m', List.mem_cons_of_mem _ hm', h1, h2, h3⟩
    | .base mb, h =>
      obtain ⟨m', hm', h1, h2, h3⟩ :=
        ih (show pickSupervisorDict rest = some s from h)
      exact ⟨m', List.mem_cons_of_mem _ hm', h1, h2, h3⟩

/-- Soundness of the second dict-shaped loop. -/
theorem pickFallbackDict_sound (ms : List PyMsg) (s : String)
    (h : pickFallbackDict ms = some s) :
    ∃ m ∈ ms, codeInternalMsg m = false ∧ m.content.pyStrip = s ∧ s ≠ "" := by
  induction ms with
  | nil => cases h
  | cons m rest ih =>
    match m, h with
    | .dictMsg role name c hb tcs, h =>
      have h2 : (if c.pyStrip ≠ "" ∧ role.pyLower ≠ "tool" then some c.pyStrip
          else pickFallbackDict rest) = some s := h
      by_cases hcond : c.pyStrip ≠ "" ∧ role.pyLower ≠ "tool"
      · rw [if_pos hcond] at h2
        injection h2 with h'
        refine ⟨.dictMsg role name c hb tcs, List.Mem.head _, ?_, h',
          h' ▸ hcond.1⟩
        simp only [codeInternalMsg]
        exact decide_eq_false hcond.2
      · rw [if_neg hcond] at h2
        obtain ⟨m', hm', h1, h2, h3⟩ := ih h2
        exact ⟨m', List.mem_cons_of_mem _ hm', h1, h2, h3⟩
    | .base mb, h =>
      obtain ⟨m', hm', h1, h2, h3⟩ :=
        ih (show pickFallbackDict rest = some s from h)
      exact ⟨m', List.mem_cons_of_mem _ hm', h1, h2, h3⟩

/-- Soundness of the full `messages` handling: a non-empty result is the
stripped content of some message the code's filters kept. -/
theorem extractFromMessages_sound (msgs : Option (List PyMsg))
    (hne : extractFromMessages msgs ≠ "") :
    ∃ m ∈ msgs.getD [], codeInternalMsg m = false ∧
      m.content.pyStrip = extractFromMessages msgs := by
  match msgs with
  | none => exact absurd rfl hne
  | some [] => exact absurd rfl hne
  | some (m :: rest) =>
    have hx : extractFromMessages (some (m :: rest)) =
        (if m.isBaseMessage = true then
          match pickSupervisorAnswer (m :: rest).reverse with
          | some s => s
          | none => (pickNonInternalAnswer (m :: rest).reverse).getD ""
        else
          match pickSupervisorDict (m :: rest).reverse with
          | some s => s
          | none => (pickFallbackDict (m :: rest).reverse).getD "") := rfl
    rw [hx] at hne ⊢
    by_cases hb : m.isBaseMessage = true
    · rw [if_pos hb] at hne ⊢
      cases hpick : pickSupervisorAnswer (m :: rest).reverse with
      | some s =>
        obtain ⟨m', hm', hbm, h1, h2, _⟩ := pickSupervisorAnswer_sound _ _ hpick
        refine ⟨m', List.mem_reverse.mp hm', ?_, h2⟩
        cases m' with
        | base mb => rw [codeInternalMsg_base]; exact h1
        | dictMsg _ _ _ _ _ => cases hbm
      | none =>
        cases hfall : pickNonInternalAnswer (m :: rest).reverse with
        | some s =>
          obtain ⟨m', hm', hbm, h1, h2, _⟩ := pickNonInternalAnswer_sound _ _ hfall
          refine ⟨m', List.mem_reverse.mp hm', ?_, h2⟩
          cases m' with
          | base mb => rw [codeInternalMsg_base]; exact h1
          | dictMsg _ _ _ _ _ => cases hbm
        | none =>
          refine absurd ?_ hne
          rw [hpick, hfall]
          rfl
    · rw [if_neg hb] at hne ⊢
      cases hpick : pickSupervisorDict (m :: rest).reverse with
      | some s =>
        obtain ⟨m', hm', h1, h2, _⟩ := pickSupervisorDict_sound _ _ hpick
        exact ⟨m', List.mem_reverse.mp hm', h1, h2⟩
      | none =>
        cases hfall : pickFallbackDict (m :: rest).reverse with
        | some s =>
          obtain ⟨m', hm', h1, h2, _⟩ := pickFallbackDict_sound _ _ hfall
          exact ⟨m', List.mem_reverse.mp hm', h1, h2⟩
        | none =>
          refine absurd ?_ hne
          rw [hpick, hfall]
          rfl

/-- Claim C4, counterexample: claim C4 is false — in the dict-shaped fallback
path the code filters only `role == "tool"`, so a dict message carrying the
`__is_handoff_back` marker is returned as the reply. -/
theorem output_assembler_counterexample : ¬ ClaimC4 := fun h => by
  have hc := (h (.pyDict none
      (some [.dictMsg "assistant" none "Transferring back to supervisor"
        true []]) none none none)).1 (by decide)
  exact absurd hc (by decide)

/-- Claim C4, amended: the extracted reply, when non-empty, always originates
in a message the code's filters kept — for typed messages that excludes
`ToolMessage`s, messages carrying the `__is_handoff_back` marker, and AI
messages with a `transfer_back_to_supervisor` tool call, while for
dict-shaped messages only `role == "tool"` entries are excluded (the marker
is not consulted there) — and the worker's final reply text is never empty
(fallback `"Done."`). -/
theorem output_assembler_reply_not_internal (r : SupRes) :
    (extractReplyText r ≠ "" →
      extractReplyText r ∈ replySources codeInternalMsg r) ∧
    workerReplyText r ≠ "" := by
  constructor
  · intro hne
    match r with
    | .pyNone => exact absurd rfl hne
    | .pyOther => exact absurd rfl hne
    | .pyStr s => exact List.Mem.head _
    | .pyMsgRes m =>
      by_cases hint : isHandoffOrInternalBase m = true
      · have hz : extractReplyText (.pyMsgRes m) = "" := by
          show (if isHandoffOrInternalBase m = true then ""
            else m.content.pyStrip) = ""
          rw [if_pos hint]
        exact absurd hz hne
      · have hext : extractReplyText (.pyMsgRes m) = m.content.pyStrip := by
          show (if isHandoffOrInternalBase m = true then ""
            else m.content.pyStrip) = m.content.pyStrip
          rw [if_neg hint]
        have hsrc : replySources codeInternalMsg (.pyMsgRes m) =
            [m.content.pyStrip] := by
          show (if codeInternalMsg (.base m) = true then []
            else [m.content.pyStrip]) = [m.content.pyStrip]
          rw [if_neg (by rw [codeInternalMsg_base]; exact hint)]
        rw [hext, hsrc]
        exact List.Mem.head _
    | .pyDict output msgs st acts ti =>
      cases output with
      | some o =>
        by_cases ho : o.pyStrip ≠ ""
        · have hext : extractReplyText (.pyDict (some o) msgs st acts ti) =
              o.pyStrip := by
            show (if o.pyStrip ≠ "" then o.pyStrip
              else extractFromMessages msgs) = o.pyStrip
            rw [if_pos ho]
          rw [hext]
          exact List.mem_append_left _ (List.Mem.head _)
        · have hext : extractReplyText (.pyDict (some o) msgs st acts ti) =
              extractFromMessages msgs := by
            show (if o.pyStrip ≠ "" then o.pyStrip
              else extractFromMessages msgs) = extractFromMessages msgs
            rw [if_neg ho]
          rw [hext] at hne ⊢
          obtain ⟨m, hm, h1, h2⟩ := extractFromMessages_sound msgs hne
          refine List.mem_append_right _ (List.mem_map.mpr
            ⟨m, List.mem_filter.mpr ⟨hm, ?_⟩, h2⟩)
          rw [h1]
          rfl
      | none =>
        have hext : extractReplyText (.pyDict none msgs st acts ti) =
            extractFromMessages msgs := rfl
        rw [hext] at hne ⊢
        obtain ⟨m, hm, h1, h2⟩ := extractFromMessages_sound msgs hne
        refine List.mem_append_right _ (List.mem_map.mpr
          ⟨m, List.mem_filter.mpr ⟨hm, ?_⟩, h2⟩)
        rw [h1]
        rfl
  · by_cases hz : extractReplyText r = ""
    · have hdone : workerReplyText r = "Done." := by
        unfold workerReplyText
        simp [hz]
      rw [hdone]
      decide
    · have hid : workerReplyText r = extractReplyText r := by
        unfold workerReplyText
        simp [hz]
      rw [hid]
      exact hz

/-- Witness for `output_assembler_reply_not_internal` at a concrete
supervisor result. -/
theorem output_assembler_reply_not_internal_witness :
    extractReplyText (.pyDict none
        (some [.base (.aiMsg (some "supervisor") "Saved your note." false [])])
        none none none) ∈
      replySources codeInternalMsg (.pyDict none
        (some [.base (.aiMsg (some "supervisor") "Saved your note." false [])])
        none none none) ∧
    workerReplyText (.pyDict none
        (some [.base (.aiMsg (some "supervisor") "Saved your note." false [])])
        none none none) ≠ "" :=
  ⟨(output_assembler_reply_not_internal (.pyDict none
      (some [.base (.aiMsg (some "supervisor") "Saved your note." false [])])
      none none none)).1 (by decide),
    (output_assembler_reply_not_internal (.pyDict none
      (some [.base (.aiMsg (some "supervisor") "Saved your note." false [])])
      none none none)).2⟩

/-- Claim C7: contrary to the claim (and to the `twilio_validate_signature`
setting the code declares), the ingress endpoint that publishes to the
inbound stream performs no signature validation: with the setting enabled and
an invalid `X-Twilio-Signature`, a well-formed POST is still published and
answered 200, and the endpoint's response is a function of the form alone.
Signature validation (403, no publish) exists only in the legacy handler
`handle_twilio_whatsapp_inbound`, which never publishes to the stream and is
not wired into the application. -/
theorem ingress_signature_not_validated :
    (∃ e, whatsappWebhookEndpoint
        ⟨⟨some "whatsapp:+15550001111", some "hi", some "SM1", some "0",
          fun _ => none, fun _ => none⟩, false⟩ true "uuid-1" "ts-1" =
        .ok200 e) ∧
    (∀ (req : WebhookRequest) (setting : Bool) (freshId ts : String),
      whatsappWebhookEndpoint req setting freshId ts =
        whatsappWebhook req.form freshId ts) ∧
    handleTwilioWhatsappInbound
        ⟨⟨some "whatsapp:+15550001111", some "hi", some "SM1", some "0",
          fun _ => none, fun _ => none⟩, false⟩ "auth-token" true
        (some "reply") "Send a message." = .invalidSig403 :=
  ⟨⟨_, rfl⟩, fun _ _ _ _ => rfl, rfl⟩

end McpAgents
